import Mathlib

/-!
Verification of the ZeroxOCR Streamlit app (src/app.py) against its
natural-language specification.

The file shallowly embeds the page-selection parsing (app.py lines 56-65
and 76-80), the result assembler (lines 121-130), the download-name
derivation (lines 181-190) and the session-state reset/result handling
(lines 69-72 and 114-138).  Python string builtins (`str.split`,
`str.strip`, `str.isdigit`, `int`, `str.join`, `str(int)`,
`pathlib.Path.stem`) are modelled as executable Lean functions over
`String`/`List Char`; where a builtin's full Unicode behaviour is
infeasible to embed, the relevant fragment is modelled and documented on
the definition.
-/

namespace ZeroxOCR

/-! ## Models of the Python string builtins used by app.py -/

/-- Model of Python `str.strip` whitespace test, restricted to the ASCII
whitespace characters (space, tab, newline, vertical tab, form feed,
carriage return).  Python also strips some further Unicode whitespace;
that fragment is not needed for any input considered here. -/
def pyIsSpace (c : Char) : Bool :=
  c == ' ' || c == '\t' || c == '\n' || c == Char.ofNat 11 || c == Char.ofNat 12 || c == '\r'

/-- Model of Python `str.strip`: drop leading and trailing whitespace. -/
def pyStrip (s : String) : String :=
  ⟨((s.data.dropWhile pyIsSpace).reverse.dropWhile pyIsSpace).reverse⟩

/-- Helper for `pySplitComma`: split a character list at every comma,
keeping empty segments, with `acc` the segment read so far. -/
def splitCommaAux (acc : List Char) : List Char → List (List Char)
  | [] => [acc]
  | c :: rest =>
    if c = ',' then acc :: splitCommaAux [] rest
    else splitCommaAux (acc ++ [c]) rest

/-- Model of Python `"...".split(",")`: every comma is a separator and
empty segments are kept, so `"".split(",") == [""]`. -/
def pySplitComma (s : String) : List String :=
  (splitCommaAux [] s.data).map fun cs => ⟨cs⟩

/-- Model of Python's per-character digit test underlying `str.isdigit`.
Python accepts the Unicode decimal digits together with characters of
Numeric_Type=Digit.  The modelled fragment is: the ASCII digits plus the
superscript digits U+00B9, U+00B2, U+00B3, which Python classifies as
digits even though `int()` rejects them. -/
def pyIsDigitChar (c : Char) : Bool :=
  c.isDigit || c == '¹' || c == '²' || c == '³'

/-- Model of Python `str.isdigit`: true iff the string is non-empty and
every character passes the digit test. -/
def pyIsDigitStr (s : String) : Bool :=
  !s.data.isEmpty && s.data.all pyIsDigitChar

/-- Numeric value of a list of ASCII decimal digit characters. -/
def natOfDigits (ds : List Char) : Nat :=
  ds.foldl (fun acc c => 10 * acc + (c.toNat - 48)) 0

/-- Model of Python `int(s)` on an already-stripped candidate string:
`some` of the decimal value when the string is a non-empty run of ASCII
decimal digits, `none` (a raised `ValueError`) otherwise.  In the
modelled character fragment `int` accepts exactly the ASCII digits, so a
superscript digit passes `str.isdigit` but makes `int` raise. -/
def pyIntParse (s : String) : Option Int :=
  if !s.data.isEmpty && s.data.all Char.isDigit then
    some (natOfDigits s.data : Nat)
  else
    none

/-- Effectful map over a list in the `Option` monad, stopping at the
first failure; models a Python comprehension in which the element
expression may raise. -/
def optionMapM (f : α → Option β) : List α → Option (List β)
  | [] => some []
  | x :: xs =>
    match f x, optionMapM f xs with
    | some y, some ys => some (y :: ys)
    | _, _ => none

/-- Model of Python `sep.join(parts)`. -/
def pyJoin (sep : String) : List String → String
  | [] => ""
  | [x] => x
  | x :: xs => x ++ sep ++ pyJoin sep xs

/-- Character for a single decimal digit value below ten. -/
def natDigitChar (d : Nat) : Char := Char.ofNat (48 + d)

/-- Fuelled decimal rendering of a natural number (most significant digit
first); the fuel only bounds the recursion depth. -/
def natDigitsAux (fuel n : Nat) : List Char :=
  match fuel with
  | 0 => []
  | fuel + 1 =>
    if n < 10 then [natDigitChar n]
    else natDigitsAux fuel (n / 10) ++ [natDigitChar (n % 10)]

/-- Model of Python `str(n)` for a natural number. -/
def pyStrNat (n : Nat) : String := ⟨natDigitsAux (n + 1) n⟩

/-- Model of Python `str(i)` for an integer. -/
def pyStrInt (i : Int) : String :=
  if i < 0 then "-" ++ pyStrNat i.natAbs else pyStrNat i.natAbs

/-- Index of the last occurrence of a character in a list, if any. -/
def lastIdxOf (c : Char) : List Char → Option Nat
  | [] => none
  | x :: xs =>
    match lastIdxOf c xs with
    | some i => some (i + 1)
    | none => if x = c then some 0 else none

/-- Model of Python `pathlib.Path(name).stem` for a plain file name
(no path separators, as produced by the upload widget): the name minus
its last extension, where a suffix only counts as an extension when its
dot is neither the first nor the last character of the name. -/
def pathStem (name : String) : String :=
  match lastIdxOf '.' name.data with
  | some i => if 0 < i ∧ i + 1 < name.data.length then ⟨name.data.take i⟩ else name
  | none => name

/-- Number of start positions (possibly overlapping) at which `needle`
occurs in the character list. -/
def countOccs (needle : List Char) : List Char → Nat
  | [] => 0
  | c :: rest =>
    (if needle.isPrefixOf (c :: rest) = true then 1 else 0) + countOccs needle rest

/-- Number of occurrences of `needle` as a substring of `hay`. -/
def countSub (needle hay : String) : Nat :=
  countOccs needle.data hay.data

/-! ## Data model (spec section 3, from pyzerox's `ZeroxOutput`) -/

/-- One per-page OCR result, as in pyzerox's `Page`
(`page` number, Markdown `content`, `content_length`). -/
structure Page where
  page : Int
  content : String
  content_length : Nat
deriving DecidableEq

/-- The provider outcome, as in pyzerox's `ZeroxOutput`.  The
`completion_time` field is a float used only for display and is omitted
from the model; no claim concerns it. -/
structure ZeroxOutput where
  pages : List Page
  file_name : String
  input_tokens : Nat
  output_tokens : Nat
deriving DecidableEq

/-- The two kinds of uploaded source file distinguished by the spec. -/
inductive SourceKind
  | pdf
  | image
deriving DecidableEq

/-! ## Result assembly (app.py lines 121-130) -/

/-- The block built for one page in the multi-page branch, app.py line
124: the Python f-string `"## 페이지 {page.page}\n\n{page.content}"`. -/
def page_block (p : Page) : String :=
  "## 페이지 " ++ pyStrInt p.page ++ "\n\n" ++ p.content

/-- app.py lines 121-128: the list `all_text_parts`.  More than one page
gives one heading block per page; exactly one page gives that page's
content verbatim; no page gives the fixed fallback literal. -/
def all_text_parts (result : ZeroxOutput) : List String :=
  if 1 < result.pages.length then
    result.pages.map page_block
  else
    match result.pages with
    | [] => ["추출된 텍스트가 없습니다."]
    | p :: _ => [p.content]

/-- app.py line 130: `"\n\n".join(all_text_parts)`. -/
def extracted_text (result : ZeroxOutput) : String :=
  pyJoin "\n\n" (all_text_parts result)

/-! ## Download name derivation (app.py lines 181-190) -/

/-- app.py lines 181-190: the download file name and MIME type handed to
`st.download_button`.  The code computes
`f"{Path(name).stem}_extracted.md"` with MIME `"text/markdown"` for
every upload; the source-kind argument is taken so that the spec's
`deriveOutputName(originalFileName, sourceKind)` can be stated, but the
code never branches on it. -/
def download_info (originalName : String) (_ : SourceKind) : String × String :=
  (pathStem originalName ++ "_extracted.md", "text/markdown")

/-! ## Page selection parsing (app.py lines 56-65 and 76-80) -/

/-- Feedback surfaced by the parsing step: the line-63 warning
(`"유효한 페이지 번호가 없습니다..."`) or the line-65 error
(`"숫자와 쉼표(,)만 사용하여..."`). -/
inductive PageMsg
  | warn
  | err
deriving DecidableEq

/-- The normalized page selection: the final `select_pages` value passed
to the provider and the parse-step feedback, if any. -/
structure PageSelection where
  pages : Option (List Int)
  msg : Option PageMsg
deriving DecidableEq

/-- The comma-segments of the input kept by the comprehension's filter
`if p.strip().isdigit()` (app.py line 61). -/
def kept_segments (page_input : String) : List String :=
  (pySplitComma page_input).filter fun p => pyIsDigitStr (pyStrip p)

/-- app.py line 61: the list comprehension
`[int(p.strip()) for p in page_input.split(",") if p.strip().isdigit()]`,
with `none` standing for a raised `ValueError`. -/
def select_pages_result (page_input : String) : Option (List Int) :=
  optionMapM (fun p => pyIntParse (pyStrip p)) (kept_segments page_input)

/-- app.py lines 58-65 together with the start-button fallback at lines
76-80: an empty input leaves the selection absent with no feedback; a
raised `ValueError` is caught, shows the error, and leaves the selection
absent; a parse yielding no valid number shows the warning and the
selection is reset to absent (all pages); otherwise the parsed list is
used with no feedback. -/
def normalize_page_selection (page_input : String) : PageSelection :=
  if page_input = "" then ⟨none, none⟩
  else
    match select_pages_result page_input with
    | none => ⟨none, some PageMsg.err⟩
    | some [] => ⟨none, some PageMsg.warn⟩
    | some ps => ⟨some ps, none⟩

/-! ## Session result state (app.py lines 29-35, 69-72, 114-138) -/

/-- What `asyncio.run(process_file_async ...)` hands back at app.py line
116: a `ZeroxOutput`, `None` after a caught provider exception, or a
value of unexpected type. -/
inductive ProviderResult
  | ok (result : ZeroxOutput)
  | failed
  | unexpected
deriving DecidableEq

/-- The three session-state fields holding the displayed result
(app.py lines 29-35). -/
structure SessionState where
  ocr_result : Option ZeroxOutput
  extracted_text : String
  processing_done : Bool
deriving DecidableEq

/-- app.py lines 69-72: the reset performed when the start button is
pressed, before the provider is invoked. -/
def reset_result_state (_ : SessionState) : SessionState :=
  { ocr_result := none, extracted_text := "", processing_done := false }

/-- app.py lines 118-138: state update from the provider result.  Only a
well-typed outcome stores anything; the `None` branch (line 134) and the
unexpected-type branch (line 137) only display a message and leave the
state untouched. -/
def apply_result (s : SessionState) : ProviderResult → SessionState
  | ProviderResult.ok r =>
    { ocr_result := some r, extracted_text := extracted_text r, processing_done := true }
  | ProviderResult.failed => s
  | ProviderResult.unexpected => s

/-- One extraction attempt: the reset at lines 69-72 followed by the
result handling at lines 114-138. -/
def run_extraction (s : SessionState) (res : ProviderResult) : SessionState :=
  apply_result (reset_result_state s) res

end ZeroxOCR

namespace ZeroxOCR

/-! ## Claim C6: single-page assembly -/

/-- C6: for every `ZeroxOutput` whose pages sequence has exactly one
entry, the assembled text is that single page's `content` verbatim, with
no heading inserted and no other modification. -/
theorem assemble_single_page (r : ZeroxOutput) (p : Page) (h : r.pages = [p]) :
    extracted_text r = p.content := by
  simp [extracted_text, all_text_parts, h, pyJoin]

/-- Witness for C6 on a concrete one-page outcome. -/
theorem assemble_single_page_witness :
    extracted_text { pages := [⟨1, "hello world", 11⟩], file_name := "scan.png",
                     input_tokens := 10, output_tokens := 4 } = "hello world" :=
  assemble_single_page _ ⟨1, "hello world", 11⟩ rfl

/-! ## Claim C7: empty-outcome fallback -/

/-- C7: for every `ZeroxOutput` whose pages sequence is empty, the
assembled text is exactly the fixed fallback literal
`"추출된 텍스트가 없습니다."`, the same string for every empty outcome. -/
theorem assemble_empty_fallback (r : ZeroxOutput) (h : r.pages = []) :
    extracted_text r = "추출된 텍스트가 없습니다." := by
  simp [extracted_text, all_text_parts, h, pyJoin]

/-- Witness for C7 on a concrete empty outcome. -/
theorem assemble_empty_fallback_witness :
    extracted_text { pages := [], file_name := "empty.pdf",
                     input_tokens := 3, output_tokens := 0 } = "추출된 텍스트가 없습니다." :=
  assemble_empty_fallback _ rfl

/-! ## Claim C8: download name for PDF sources -/

/-- C8: for every original file name with source kind PDF, the download
derivation returns the file name stem concatenated with
`"_extracted.md"` and the Markdown MIME type, for any input string; when
the name has no dot at all (no extension) the stem is the whole name. -/
theorem download_info_pdf (name : String) :
    download_info name SourceKind.pdf = (pathStem name ++ "_extracted.md", "text/markdown")
      ∧ (lastIdxOf '.' name.data = none → pathStem name = name) := by
  refine ⟨rfl, ?_⟩
  intro h
  simp [pathStem, h]

/-- Witness for C8 at the extension-free name `"noext"` from the spec's
test table. -/
theorem download_info_pdf_witness :
    lastIdxOf '.' ("noext".data) = none
      ∧ download_info "noext" SourceKind.pdf = ("noext_extracted.md", "text/markdown") := by
  have h := download_info_pdf "noext"
  refine ⟨by decide, ?_⟩
  rw [h.1, h.2 (by decide)]
  decide

/-! ## Claim C2: download name for IMAGE sources -/

/-- C2 counterexample: the code derives the download name the same way
for every upload, so an image named `"scan.jpeg"` downloads as
`"scan_extracted.md"` with MIME `"text/markdown"`, not as
`"scan_extracted.txt"` with plain-text MIME as the claim states. -/
theorem download_image_counterexample :
    download_info "scan.jpeg" SourceKind.image = ("scan_extracted.md", "text/markdown")
      ∧ (("scan_extracted.md", "text/markdown") : String × String)
          ≠ ("scan_extracted.txt", "text/plain") := by
  constructor
  · decide
  · decide

/-- C2 as amended: for every original file name with source kind IMAGE,
the download derivation returns the stem concatenated with
`"_extracted.md"` and the Markdown MIME type, identical to the PDF case,
because the code never branches on the source kind. -/
theorem download_info_image (name : String) :
    download_info name SourceKind.image = (pathStem name ++ "_extracted.md", "text/markdown")
      ∧ download_info name SourceKind.image = download_info name SourceKind.pdf :=
  ⟨rfl, rfl⟩

/-! ## Claim C9: no partial result state after a failed attempt -/

/-- C9: the displayed result (stored outcome, assembled text, done flag)
is cleared before every extraction attempt, and when the provider does
not return a well-typed outcome (a caught exception or an unexpected
value) the state after the attempt is still the cleared state, holding
no text from the failed attempt. -/
theorem failed_attempt_clears_state (s : SessionState) (res : ProviderResult)
    (h : ∀ r, res ≠ ProviderResult.ok r) :
    reset_result_state s = ⟨none, "", false⟩
      ∧ run_extraction s res = ⟨none, "", false⟩ := by
  refine ⟨rfl, ?_⟩
  cases res with
  | ok r => exact absurd rfl (h r)
  | failed => rfl
  | unexpected => rfl

/-- Witness for C9: a failed attempt starting from a state that still
shows a previous result ends in the cleared state. -/
theorem failed_attempt_clears_state_witness :
    run_extraction ⟨some ⟨[⟨1, "old", 3⟩], "prev.pdf", 5, 6⟩, "old text", true⟩
        ProviderResult.failed = ⟨none, "", false⟩ :=
  (failed_attempt_clears_state ⟨some ⟨[⟨1, "old", 3⟩], "prev.pdf", 5, 6⟩, "old text", true⟩
    ProviderResult.failed (fun _ h => ProviderResult.noConfusion h)).2

/-! ## Lemmas about the Option-monad comprehension -/

/-- If some element of the list fails, the whole comprehension fails. -/
lemma optionMapM_eq_none_of_mem (f : α → Option β) (l : List α) (x : α)
    (hx : x ∈ l) (hf : f x = none) : optionMapM f l = none := by
  induction l with
  | nil => cases hx
  | cons a as ih =>
    rcases List.mem_cons.mp hx with h | h
    · subst h
      simp [optionMapM, hf]
    · have h2 := ih h
      unfold optionMapM
      rw [h2]
      cases f a <;> rfl

/-- Every element of a successful comprehension's output is the image of
some element of the input. -/
lemma optionMapM_mem (f : α → Option β) :
    ∀ (l : List α) (ys : List β), optionMapM f l = some ys →
      ∀ y ∈ ys, ∃ x ∈ l, f x = some y := by
  intro l
  induction l with
  | nil =>
    intro ys h y hy
    simp [optionMapM] at h
    subst h
    cases hy
  | cons a as ih =>
    intro ys h y hy
    unfold optionMapM at h
    cases hfa : f a with
    | none => rw [hfa] at h; cases h
    | some b =>
      cases hrec : optionMapM f as with
      | none => rw [hfa, hrec] at h; cases h
      | some bs =>
        rw [hfa, hrec] at h
        cases h
        rcases List.mem_cons.mp hy with hyb | hybs
        · exact ⟨a, List.mem_cons_self a as, hyb ▸ hfa⟩
        · obtain ⟨x, hx, hfx⟩ := ih bs hrec y hybs
          exact ⟨x, List.mem_cons_of_mem a hx, hfx⟩

/-- A present page selection comes from a successful run of the line-61
comprehension. -/
lemma normalize_pages_some (s : String) (ps : List Int)
    (h : (normalize_page_selection s).pages = some ps) :
    select_pages_result s = some ps := by
  unfold normalize_page_selection at h
  by_cases hs : s = ""
  · rw [if_pos hs] at h
    cases h
  · rw [if_neg hs] at h
    cases hres : select_pages_result s with
    | none => rw [hres] at h; cases h
    | some l =>
      cases l with
      | nil => rw [hres] at h; cases h
      | cons p rest =>
        rw [hres] at h
        simp only [PageSelection.mk.injEq] at h ⊢
        exact congrArg some (Option.some.inj h)

/-- A successful `int` conversion yields a non-negative value. -/
lemma pyIntParse_nonneg (t : String) (n : Int) (h : pyIntParse t = some n) :
    0 ≤ n := by
  unfold pyIntParse at h
  split at h
  · exact (Option.some.inj h) ▸ Int.natCast_nonneg _
  · cases h

/-! ## Claim C3: sign of parsed page numbers -/

/-- C3 counterexample: the input `"0"` passes the `isdigit` filter, so
the resulting selection contains `0`, which is not strictly positive as
the claim states. -/
theorem select_pages_positive_counterexample :
    (normalize_page_selection "0").pages = some [0] ∧ ¬ (0 < (0 : Int)) := by
  refine ⟨by decide, by decide⟩

/-- C3 as amended: every element of a present page selection is a
non-negative integer (digit-only segments can parse to zero, so strict
positivity fails but non-negativity holds). -/
theorem select_pages_nonneg (s : String) (ps : List Int)
    (h : (normalize_page_selection s).pages = some ps) :
    ∀ n ∈ ps, 0 ≤ n := by
  intro n hn
  have hres := normalize_pages_some s ps h
  unfold select_pages_result at hres
  obtain ⟨x, hx, hfx⟩ := optionMapM_mem _ _ _ hres n hn
  exact pyIntParse_nonneg _ _ hfx

/-- Witness for C3 (amended) on the spec's example input `"1,3"`. -/
theorem select_pages_nonneg_witness :
    (normalize_page_selection "1,3").pages = some [1, 3] ∧ 0 ≤ (3 : Int) :=
  ⟨by decide, select_pages_nonneg "1,3" [1, 3] (by decide) 3 (by decide)⟩

/-! ## Claim C4: duplicates in the page selection -/

/-- C4 counterexample: the comprehension builds a list, not a set, so
the input `"1,1,3"` yields `[1, 1, 3]`, in which the value `1` occurs
twice rather than collapsing to a single occurrence. -/
theorem select_pages_set_counterexample :
    (normalize_page_selection "1,1,3").pages = some [1, 1, 3]
      ∧ ([1, 1, 3] : List Int).count 1 = 2 ∧ (2 : Nat) ≠ 1 := by
  refine ⟨by decide, by decide, by decide⟩

/-- C4 as amended: duplicates are preserved, not collapsed: `"1,1,3"`
yields the list `[1, 1, 3]` and `"1,3"` the list `[1, 3]`; the two
selections contain the same values (so they filter the same pages) but
are different lists. -/
theorem select_pages_duplicates_preserved :
    (normalize_page_selection "1,1,3").pages = some [1, 1, 3]
      ∧ (normalize_page_selection "1,3").pages = some [1, 3]
      ∧ (∀ n : Int, n ∈ ([1, 1, 3] : List Int) ↔ n ∈ ([1, 3] : List Int))
      ∧ ([1, 1, 3] : List Int) ≠ [1, 3] := by
  refine ⟨by decide, by decide, ?_, by decide⟩
  intro n
  simp only [List.mem_cons, List.not_mem_nil, or_false]
  tauto

/-! ## Claim C5: case analysis of the page-selection parse -/

/-- C5 counterexample: on the non-empty input `"²"` the code surfaces
the `ValueError` error message with the selection absent, which is
neither of the claim's two non-empty outcomes (warning with absent
pages, or parsed pages with no message). -/
theorem normalize_cases_counterexample :
    normalize_page_selection "²" = ⟨none, some PageMsg.err⟩
      ∧ (⟨none, some PageMsg.err⟩ : PageSelection) ≠ ⟨none, some PageMsg.warn⟩
      ∧ ∀ ps : List Int, (⟨none, some PageMsg.err⟩ : PageSelection) ≠ ⟨some ps, none⟩ := by
  refine ⟨by decide, by decide, ?_⟩
  intro ps h
  cases h

/-- C5 as amended: an absent (empty) input yields pages absent with no
message; a non-empty input none of whose comma-segments passes the
digit filter yields pages absent with the warning; a non-empty input
whose kept segments all convert yields the parsed (non-empty) list with
no message; and a non-empty input with a kept segment on which `int`
raises yields pages absent with the error message instead. -/
theorem normalize_page_selection_cases (s : String) :
    (s = "" → normalize_page_selection s = ⟨none, none⟩)
      ∧ (s ≠ "" → kept_segments s = [] →
          normalize_page_selection s = ⟨none, some PageMsg.warn⟩)
      ∧ (∀ ps, s ≠ "" →
          optionMapM (fun p => pyIntParse (pyStrip p)) (kept_segments s) = some ps →
          ps ≠ [] → normalize_page_selection s = ⟨some ps, none⟩)
      ∧ (s ≠ "" → (∃ p ∈ kept_segments s, pyIntParse (pyStrip p) = none) →
          normalize_page_selection s = ⟨none, some PageMsg.err⟩) := by
  refine ⟨?_, ?_, ?_, ?_⟩
  · intro h
    simp [normalize_page_selection, h]
  · intro hne hk
    have hres : select_pages_result s = some [] := by
      unfold select_pages_result
      rw [hk]
      rfl
    simp [normalize_page_selection, if_neg hne, hres]
  · intro ps hne hmap hps
    have hres : select_pages_result s = some ps := hmap
    cases ps with
    | nil => cases hps rfl
    | cons p rest => simp [normalize_page_selection, if_neg hne, hres]
  · rintro hne ⟨p, hp, hfp⟩
    have hres : select_pages_result s = none :=
      optionMapM_eq_none_of_mem _ _ _ hp hfp
    simp [normalize_page_selection, if_neg hne, hres]

/-- Witness for C5 (amended) on the spec's three example inputs. -/
theorem normalize_page_selection_cases_witness :
    normalize_page_selection "" = ⟨none, none⟩
      ∧ normalize_page_selection "a, b," = ⟨none, some PageMsg.warn⟩
      ∧ normalize_page_selection "1, 3" = ⟨some [1, 3], none⟩ :=
  ⟨(normalize_page_selection_cases "").1 rfl,
   (normalize_page_selection_cases "a, b,").2.1 (by decide) (by decide),
   (normalize_page_selection_cases "1, 3").2.2.1 [1, 3] (by decide) (by decide) (by decide)⟩

/-! ## Claim C10: the page parse is not total -/

/-- C10: page-selection parsing is not total: the non-empty input `"²"`
passes the comprehension's `isdigit` filter but makes `int` raise a
`ValueError`; the exception is caught, the error message (not the
no-valid-pages warning) is surfaced, and the page selection stays
absent. -/
theorem page_parse_not_total :
    ("²" : String) ≠ ""
      ∧ kept_segments "²" = ["²"]
      ∧ select_pages_result "²" = none
      ∧ normalize_page_selection "²" = ⟨none, some PageMsg.err⟩ := by
  refine ⟨by decide, by decide, by decide, by decide⟩

/-! ## Substring-counting lemmas for the multi-page assembly -/

/-- A list is a prefix of itself extended on the right. -/
lemma isPrefixOf_append_right (m r : List Char) : m.isPrefixOf (m ++ r) = true := by
  induction m with
  | nil => simp [List.isPrefixOf]
  | cons a as ih => simp [List.isPrefixOf, ih]

/-- Extending a list past a character that the needle never contains
does not change whether the needle is a prefix. -/
lemma isPrefixOf_append_cons (c : Char) (ys : List Char) :
    ∀ (m : List Char), c ∉ m → ∀ (xs : List Char),
      m.isPrefixOf (xs ++ c :: ys) = m.isPrefixOf xs := by
  intro m
  induction m with
  | nil => intro _ xs; simp [List.isPrefixOf]
  | cons a as ih =>
    intro hc xs
    cases xs with
    | nil =>
      have hac : (a == c) = false :=
        beq_eq_false_iff_ne.mpr fun h => hc (h ▸ List.mem_cons_self a as)
      simp [List.isPrefixOf, hac]
    | cons x xs2 =>
      have hcas : c ∉ as := fun h => hc (List.mem_cons_of_mem a h)
      simp [List.cons_append, List.isPrefixOf, ih hcas xs2]

/-- Occurrence counts split at a separator character that the needle
never contains, because no occurrence can straddle the separator. -/
lemma countOccs_append_cons (c : Char) (m : List Char) (hc : c ∉ m) (xs ys : List Char) :
    countOccs m (xs ++ c :: ys) = countOccs m xs + countOccs m (c :: ys) := by
  induction xs with
  | nil => simp [countOccs]
  | cons x xs2 ih =>
    have hp := isPrefixOf_append_cons c ys m hc (x :: xs2)
    rw [List.cons_append] at hp
    have hx : countOccs m (x :: xs2)
        = (if m.isPrefixOf (x :: xs2) = true then 1 else 0) + countOccs m xs2 := by
      simp only [countOccs]
    conv_lhs => rw [List.cons_append]; simp only [countOccs]
    rw [hp, ih, hx]
    omega

/-- Dropping a head character at which the needle does not match leaves
the occurrence count unchanged. -/
lemma countOccs_cons_of_not_prefix (m : List Char) (x : Char) (l : List Char)
    (h : m.isPrefixOf (x :: l) = false) : countOccs m (x :: l) = countOccs m l := by
  simp [countOccs, h]

/-- A needle whose first character is absent from the haystack never
occurs in it. -/
lemma countOccs_eq_zero_of_head_not_mem (a : Char) (as : List Char) :
    ∀ (l : List Char), a ∉ l → countOccs (a :: as) l = 0 := by
  intro l
  induction l with
  | nil => intro _; rfl
  | cons x xs ih =>
    intro h
    have hax : (a == x) = false :=
      beq_eq_false_iff_ne.mpr fun e => h (e ▸ List.mem_cons_self x xs)
    have h2 : a ∉ xs := fun hm => h (List.mem_cons_of_mem x hm)
    simp [countOccs, List.isPrefixOf, hax, ih h2]

/-- The heading marker contains no newline, so it never matches at a
newline. -/
lemma countOccs_marker_newline (l : List Char) :
    countOccs ("## 페이지 ".data) ('\n' :: l) = countOccs ("## 페이지 ".data) l := by
  apply countOccs_cons_of_not_prefix
  simp [List.isPrefixOf, show (('#' : Char) == '\n') = false from by decide]

/-- The heading marker occurs exactly once in the marker itself followed
by hash-free material. -/
lemma countOccs_marker_self_append (ds : List Char) (h : '#' ∉ ds) :
    countOccs ("## 페이지 ".data) ("## 페이지 ".data ++ ds) = 1 := by
  show countOccs ("## 페이지 ".data) ('#' :: '#' :: ' ' :: '페' :: '이' :: '지' :: ' ' :: ds) = 1
  simp only [countOccs]
  rw [countOccs_eq_zero_of_head_not_mem '#' ['#', ' ', '페', '이', '지', ' '] ds h]
  simp [List.isPrefixOf,
    show (('#' : Char) == ' ') = false from by decide,
    show (('#' : Char) == '페') = false from by decide,
    show (('#' : Char) == '이') = false from by decide,
    show (('#' : Char) == '지') = false from by decide]

/-- Every character produced by the decimal rendering below ten is an
ASCII digit. -/
lemma natDigitChar_isDigit (d : Nat) (h : d < 10) : (natDigitChar d).isDigit = true := by
  interval_cases d <;> decide

/-- Every character of the fuelled decimal rendering is an ASCII digit. -/
lemma natDigitsAux_digits : ∀ (fuel n : Nat), ∀ c ∈ natDigitsAux fuel n, c.isDigit = true := by
  intro fuel
  induction fuel with
  | zero => intro n c hc; cases hc
  | succ fuel ih =>
    intro n c hc
    unfold natDigitsAux at hc
    by_cases h : n < 10
    · rw [if_pos h] at hc
      exact (List.mem_singleton.mp hc) ▸ natDigitChar_isDigit n h
    · rw [if_neg h] at hc
      rcases List.mem_append.mp hc with h1 | h2
      · exact ih _ c h1
      · exact (List.mem_singleton.mp h2) ▸ natDigitChar_isDigit _ (Nat.mod_lt _ (by omega))

/-- The rendering of an integer page number contains no hash character,
so it cannot open a heading marker. -/
lemma pyStrInt_no_hash (i : Int) : '#' ∉ (pyStrInt i).data := by
  intro hmem
  have hdig : ∀ c ∈ (pyStrNat i.natAbs).data, c.isDigit = true := by
    intro c hc
    exact natDigitsAux_digits _ _ c hc
  unfold pyStrInt at hmem
  by_cases hi : i < 0
  · rw [if_pos hi] at hmem
    rw [show ("-" ++ pyStrNat i.natAbs).data = '-' :: (pyStrNat i.natAbs).data from by
      simp [String.data_append]] at hmem
    rcases List.mem_cons.mp hmem with h | h
    · cases h
    · have := hdig _ h
      simp at this
  · rw [if_neg hi] at hmem
    have := hdig _ hmem
    simp at this

/-- The data of one page block: the marker, the rendered page number, a
blank line, then the page's content. -/
lemma page_block_data (p : Page) :
    (page_block p).data
      = "## 페이지 ".data ++ ((pyStrInt p.page).data ++ '\n' :: '\n' :: p.content.data) := by
  simp [page_block, String.data_append, List.append_assoc,
    show ("\n\n" : String).data = ['\n', '\n'] from rfl]

/-- One block contains the marker exactly once more than its page's
content does. -/
lemma countOccs_block (p : Page) :
    countOccs ("## 페이지 ".data) (page_block p).data
      = 1 + countOccs ("## 페이지 ".data) p.content.data := by
  rw [page_block_data,
    show "## 페이지 ".data ++ ((pyStrInt p.page).data ++ '\n' :: '\n' :: p.content.data)
        = ("## 페이지 ".data ++ (pyStrInt p.page).data) ++ '\n' :: ('\n' :: p.content.data)
      from (List.append_assoc _ _ _).symm,
    countOccs_append_cons '\n' _ (by decide) _ _,
    countOccs_marker_self_append _ (pyStrInt_no_hash p.page),
    countOccs_marker_newline, countOccs_marker_newline]

/-- Marker count of the joined page blocks: one occurrence per page plus
whatever occurrences the page contents themselves contain. -/
lemma countOccs_page_blocks :
    ∀ (ps : List Page), ps ≠ [] →
      countOccs ("## 페이지 ".data) (pyJoin "\n\n" (ps.map page_block)).data
        = ps.length
          + (ps.map fun p => countOccs ("## 페이지 ".data) p.content.data).sum := by
  intro ps
  induction ps with
  | nil => intro h; cases h rfl
  | cons p ps2 ih =>
    intro _
    cases ps2 with
    | nil =>
      simp only [List.map_cons, List.map_nil, pyJoin]
      rw [countOccs_block]
      simp
    | cons q ps3 =>
      have hjoin : pyJoin "\n\n" ((p :: q :: ps3).map page_block)
          = page_block p ++ "\n\n" ++ pyJoin "\n\n" ((q :: ps3).map page_block) := by
        simp only [List.map_cons]
        rfl
      rw [hjoin,
        show (page_block p ++ "\n\n" ++ pyJoin "\n\n" ((q :: ps3).map page_block)).data
            = (page_block p).data
                ++ '\n' :: ('\n' :: (pyJoin "\n\n" ((q :: ps3).map page_block)).data)
          from by simp [String.data_append, show ("\n\n" : String).data = ['\n', '\n'] from rfl],
        countOccs_append_cons '\n' _ (by decide) _ _,
        countOccs_marker_newline, countOccs_marker_newline,
        countOccs_block, ih (by simp)]
      simp [List.map_cons]
      omega

/-! ## Claim C1: multi-page assembly -/

/-- C1 counterexample: when a page's content itself contains the heading
marker, the assembled output contains more than `pages.length`
occurrences of `"## 페이지 "` (here three for two pages), so the exact
count the claim states fails. -/
theorem assemble_marker_count_counterexample :
    countSub "## 페이지 "
        (extracted_text
          { pages := [⟨1, "## 페이지 9", 8⟩, ⟨2, "ok", 2⟩], file_name := "doc.pdf",
            input_tokens := 0, output_tokens := 0 }) = 3
      ∧ ([⟨1, "## 페이지 9", 8⟩, ⟨2, "ok", 2⟩] : List Page).length = 2
      ∧ (3 : Nat) ≠ 2 := by
  refine ⟨by decide, by decide, by decide⟩

/-- C1 as amended: with more than one page the assembled text is exactly
the blocks `"## 페이지 {pageNumber}"` + blank line + content, joined by a
blank line in the order given without re-sorting; the output contains
`pages.length` marker occurrences plus those occurring inside page
contents, hence exactly `pages.length` when no page's content contains
the marker. -/
theorem assemble_multipage (r : ZeroxOutput) (h : 1 < r.pages.length) :
    extracted_text r = pyJoin "\n\n" (r.pages.map page_block)
      ∧ countSub "## 페이지 " (extracted_text r)
          = r.pages.length + (r.pages.map fun p => countSub "## 페이지 " p.content).sum
      ∧ ((∀ p ∈ r.pages, countSub "## 페이지 " p.content = 0) →
          countSub "## 페이지 " (extracted_text r) = r.pages.length) := by
  have he : extracted_text r = pyJoin "\n\n" (r.pages.map page_block) := by
    unfold extracted_text all_text_parts
    rw [if_pos h]
  have hps : r.pages ≠ [] := by
    intro e
    rw [e] at h
    simp at h
  have hc : countSub "## 페이지 " (extracted_text r)
      = r.pages.length + (r.pages.map fun p => countSub "## 페이지 " p.content).sum := by
    rw [he]
    unfold countSub
    rw [countOccs_page_blocks r.pages hps]
  refine ⟨he, hc, ?_⟩
  intro hz
  rw [hc]
  have hsum : (r.pages.map fun p => countSub "## 페이지 " p.content).sum = 0 := by
    apply List.sum_eq_zero
    intro x hx
    obtain ⟨p, hp, rfl⟩ := List.mem_map.mp hx
    exact hz p hp
  omega

/-- Witness for C1 (amended) on a concrete two-page outcome whose
contents are marker-free. -/
theorem assemble_multipage_witness :
    countSub "## 페이지 "
        (extracted_text
          { pages := [⟨1, "alpha", 5⟩, ⟨2, "beta", 4⟩], file_name := "doc.pdf",
            input_tokens := 7, output_tokens := 8 }) = 2 :=
  (assemble_multipage
      { pages := [⟨1, "alpha", 5⟩, ⟨2, "beta", 4⟩], file_name := "doc.pdf",
        input_tokens := 7, output_tokens := 8 } (by decide)).2.2 (by decide)

end ZeroxOCR
